import Mathlib

/-!
Verification of the BackItUp backup manager's core against its design
specification.  The development shallowly embeds the three core components:

* `validate_schema_paths` (src/utils.py) — path validation over an abstract
  filesystem oracle `fs : String → Bool` (path exists at call time);
* `BackupWorker.run` (src/worker.py) — the job supervisor, embedded as a pure
  function from the worker's inputs (schema data, filesystem, disk-usage
  result, subprocess launch result, the subprocess's stdout lines, the
  cancellation flag's observation point, exit code and stderr text) to the
  ordered list of emitted events;
* the queue controller (src/main.py: `queue_selected_backup`,
  `process_backup_queue`, `start_backup`, `worker_thread_finished`) — embedded
  as a state machine driven by an explicit event list.
-/

/-- A Python value as the schema dictionaries use them: `None`, strings,
integers, booleans and (possibly nested) lists. -/
inductive PyValue where
  | pyNone
  | pyStr (s : String)
  | pyInt (n : Int)
  | pyBool (b : Bool)
  | pyList (xs : List PyValue)

/-- A Python dict with string keys, as an association list (first binding
wins, as `dict.get` sees exactly one binding per key). -/
def PyDict := List (String × PyValue)

/-- `d.get(k)` as an `Option`: `none` when the key is absent. -/
def dictGet (d : PyDict) (k : String) : Option PyValue :=
  (d.find? (fun kv => kv.1 == k)).map (fun kv => kv.2)

/-- Python truthiness of a `PyValue` (`not v` is `pyFalsy v = true`). -/
def pyFalsy : PyValue → Bool
  | .pyNone => true
  | .pyStr s => s == ""
  | .pyInt n => n == 0
  | .pyBool b => !b
  | .pyList xs => xs.isEmpty

/-- Whether a Python value is a `str` (`isinstance(v, str)`). -/
def isPyStr : PyValue → Bool
  | .pyStr _ => true
  | _ => false

mutual

/-- Python `repr` of a value, as used inside `str` of a list.  String
escaping inside `repr` of a `str` is not modelled (no claim depends on it). -/
def pyRepr : PyValue → String
  | .pyNone => "None"
  | .pyStr s => "'" ++ s ++ "'"
  | .pyInt n => toString n
  | .pyBool b => if b then "True" else "False"
  | .pyList xs => "[" ++ String.intercalate (", ") (pyReprList xs) ++ "]"

/-- `repr` of each element of a list, in order. -/
def pyReprList : List PyValue → List String
  | [] => []
  | x :: xs => pyRepr x :: pyReprList xs

end

/-- Python `str(v)`, as an f-string renders an interpolated value. -/
def pyToDisplay : PyValue → String
  | .pyNone => "None"
  | .pyStr s => s
  | .pyInt n => toString n
  | .pyBool b => if b then "True" else "False"
  | .pyList xs => "[" ++ String.intercalate (", ") (pyReprList xs) ++ "]"

/-- The sources-format problem of src/utils.py lines 44-46: recorded when
the `sources` value is not a list. -/
def sourcesProblemOf (sourcesVal : PyValue) : List String :=
  match sourcesVal with
  | .pyList _ => []
  | _ => ["Sources format is invalid"]

/-- The list the validator iterates over: the `sources` value when it is a
list, else the empty list src/utils.py line 46 resets it to. -/
def sourcesListOf (sourcesVal : PyValue) : List PyValue :=
  match sourcesVal with
  | .pyList xs => xs
  | _ => []

/-- The destination problem of src/utils.py lines 48-51: missing/non-string
(or falsy) destination, else a non-existing path. -/
def destProblemOf (fs : String → Bool) (destination : PyValue) : List String :=
  if pyFalsy destination || !isPyStr destination then
    ["Destination path is missing or invalid"]
  else
    match destination with
    | .pyStr s => if fs s then [] else [("Destination: ") ++ s]
    | _ => []

/-- The per-source problems of src/utils.py lines 53-55, in list order. -/
def sourceProblemsOf (fs : String → Bool) (sources : List PyValue) : List String :=
  sources.flatMap (fun src =>
    match src with
    | .pyStr s => if fs s then [] else [("Source: ") ++ s]
    | other => [("Source: ") ++ pyToDisplay other])

/-- All problems a non-falsy schema dict accumulates, in the source's
append order. -/
def invalidPathsOf (fs : String → Bool) (d : PyDict) : List String :=
  sourcesProblemOf ((dictGet d ("sources")).getD (.pyList [])) ++
    destProblemOf fs ((dictGet d ("destination")).getD .pyNone) ++
    sourceProblemsOf fs (sourcesListOf ((dictGet d ("sources")).getD (.pyList [])))

/-- src/utils.py `validate_schema_paths(schema_data)`, over the filesystem
oracle `fs` (`Path(p).exists()` at call time).  `schema_data` is `none` for
Python `None`; `some []` is the empty dict (both falsy).  Returns
`(is_valid, invalid_paths)`. -/
def validate_schema_paths (fs : String → Bool) (schema_data : Option PyDict) :
    Bool × List String :=
  match schema_data with
  | none => (false, ["Schema data is empty"])
  | some d =>
    if d.isEmpty then (false, ["Schema data is empty"])
    else ((invalidPathsOf fs d).isEmpty, invalidPathsOf fs d)

/-! ## The job supervisor: `BackupWorker.run` (src/worker.py)

The worker is embedded as a pure function from its inputs to the ordered
list of events it emits.  Interactions with the outside world are oracle
fields of `RunInput`: the filesystem, the result of `shutil.disk_usage`,
the result of `subprocess.Popen`, the sequence of strings `readline`
returns before the final empty read, the subprocess's exit code, the
drained stderr text, and the point at which the worker's cancellation flag
is first observed set. -/

/-- Python `\s` on the characters rsync emits (ASCII whitespace). -/
def pyIsSpace (c : Char) : Bool :=
  c == ' ' || c == '\t' || c == '\n' || c == '\x0b' || c == '\x0c' || c == '\r'

/-- The integer a run of decimal digit characters denotes (`int(...)`). -/
def natOfDigits (ds : List Char) : Nat :=
  ds.foldl (fun n c => n * 10 + (c.toNat - ('0').toNat)) 0

/-- One attempt of the regex `\s+(\d+)%\s+` anchored at the head of the
character list, with the greedy semantics of `re`: the first whitespace
run is maximal (backtracking cannot help, the next character must be a
digit), the digit run is maximal (the next character must be `%`), and at
least one whitespace character must follow the `%`. -/
def tryPercentAt : List Char → Option Nat
  | [] => none
  | c :: rest =>
    if pyIsSpace c then
      let afterWs := rest.dropWhile pyIsSpace
      let ds := afterWs.takeWhile Char.isDigit
      match afterWs.dropWhile Char.isDigit with
      | p :: d :: _ =>
        if p == '%' then
          if ds.isEmpty then none
          else if pyIsSpace d then some (natOfDigits ds) else none
        else none
      | _ => none
    else none

/-- `re.search(r'\s+(\d+)%\s+', line)` scanning start positions left to
right: the captured group of the leftmost match, as an integer. -/
def searchPercentList : List Char → Option Nat
  | [] => none
  | c :: rest =>
    match tryPercentAt (c :: rest) with
    | some n => some n
    | none => searchPercentList rest

/-- The progress parser of src/worker.py line 124: the percentage captured
by `re.search(r'\s+(\d+)%\s+', line)`, if the line has a match. -/
def searchPercent (line : String) : Option Nat :=
  searchPercentList line.data

/-- The events a `BackupWorker` emits, together with the one external
effect the claims track (`spawn`: `subprocess.Popen` was called).  The
first four constructors are the Qt signals of src/worker.py lines 21-25
(each carries the schema name first). -/
inductive REvent where
  | progressUpdated (schema : String) (pct : Nat)
  | logMessage (schema : String) (msg : String)
  | jobFinished (schema : String) (success : Bool) (status : String)
  | diskSpaceError (schema : String) (msg : String)
  | validationError (schema : String) (msg : String)
  | spawn
deriving DecidableEq, Repr

/-- Whether an event is the terminal `jobFinished` signal. -/
def isFinishedEv : REvent → Bool
  | .jobFinished _ _ _ => true
  | .progressUpdated _ _ => false
  | .logMessage _ _ => false
  | .diskSpaceError _ _ => false
  | .validationError _ _ => false
  | .spawn => false

/-- Result of `shutil.disk_usage(destination)`: a usage record (only the
`free` field is read), `FileNotFoundError`, or any other exception. -/
inductive DiskUsage where
  | ok (free : Nat)
  | fileNotFound
  | raised (msg : String)
deriving DecidableEq, Repr

/-- Result of `subprocess.Popen`: a live process handle, rsync missing
from PATH (`FileNotFoundError`), or any other exception. -/
inductive LaunchResult where
  | ok
  | fileNotFound
  | raised (msg : String)
deriving DecidableEq, Repr

/-- The free-space floor of src/worker.py line 58: `100 * 1024 * 1024`. -/
def free_space_threshold : Nat := 100 * 1024 * 1024

/-- Two-decimal rendering of `free / (1024*1024)` as in the f-string
`f"{usage.free / (1024*1024):.2f}"`, computed on the exact rational with
round-half-to-even (the intermediate binary-double rounding of Python is
not modelled; no claim depends on this text). -/
def formatFreeMB (free : Nat) : String :=
  let q := free * 100
  let d := 1024 * 1024
  let n := q / d
  let r := q % d
  let cents :=
    if d < 2 * r then n + 1
    else if 2 * r < d then n
    else if n % 2 == 0 then n else n + 1
  let frac := cents % 100
  let fracStr := if frac < 10 then "0" ++ toString frac else toString frac
  toString (cents / 100) ++ "." ++ fracStr

/-- All inputs of one `BackupWorker.run` execution.  `schema_name` is
`schema_data['schema_name']` as extracted by the constructor (which also
guarantees `schema_data` is a non-empty dict containing that key).
`cancelledBeforeStart` holds when `cancel()` ran before `run` began;
`cancelAt = some k` means the flag, set mid-run, first reads true at the
k-th cancellation check (checks 0 .. `stdout_lines.length` are the
top-of-loop polls, check `stdout_lines.length + 1` is the re-check of
line 137 after the process has exited). -/
structure RunInput where
  schema_name : String
  schema_data : PyDict
  fs : String → Bool
  disk_usage : DiskUsage
  launch : LaunchResult
  stdout_lines : List String
  cancelledBeforeStart : Bool
  cancelAt : Option Nat
  return_code : Int
  stderr_output : String

/-- The first cancellation check at which the flag reads true, if any. -/
def cancelIndex (i : RunInput) : Option Nat :=
  if i.cancelledBeforeStart then some 0 else i.cancelAt

/-- Whether the cancellation check number `k` observes the flag set
(the flag is monotone: once set it stays set). -/
def obsAt (ci : Option Nat) (k : Nat) : Bool :=
  match ci with
  | some j => j ≤ k
  | none => false

/-- The events one stdout line produces (src/worker.py lines 119-127):
nothing for a falsy (empty) line, otherwise the stripped line as a log
message, then a progress event when the progress regex matches. -/
def lineEvents (name : String) (line : String) : List REvent :=
  if line == "" then []
  else
    .logMessage name line.trim ::
      (match searchPercent line with
       | some p => [.progressUpdated name p]
       | none => [])

/-- The monitor loop of src/worker.py lines 108-127, started at check
index `k`: polls the cancellation flag, then reads the next line.
Returns the emitted events and whether the loop ended by cancellation
(in which case the subprocess was terminated and the terminal Cancelled
event was emitted inside the loop). -/
def loopRun (name : String) (ci : Option Nat) : List String → Nat → List REvent × Bool
  | lines, k =>
    if obsAt ci k then ([.jobFinished name false "Cancelled"], true)
    else
      match lines with
      | [] => ([], false)
      | l :: rest =>
        let out := loopRun name ci rest (k + 1)
        (lineEvents name l ++ out.1, out.2)

/-- The partial-success status string of src/worker.py lines 149-153. -/
def warningMsg (stderr_output : String) : String :=
  "Completed with warnings: Some files changed during transfer." ++
    (if stderr_output == "" then "" else (" Details: ") ++ stderr_output.trim)

/-- The failure status string of src/worker.py lines 158-162. -/
def rsyncFailMsg (return_code : Int) (stderr_output : String) : String :=
  "rsync failed with return code " ++ toString return_code ++ "." ++
    (if stderr_output == "" then "" else (" Stderr: ") ++ stderr_output.trim)

/-- `str(s)` of each element of the sources list (src/worker.py line 85). -/
def sourceStrings (d : PyDict) : List String :=
  (match (dictGet d ("sources")).getD (.pyList []) with
   | .pyList xs => xs
   | _ => []).map pyToDisplay

/-- `str(destination)` (src/worker.py lines 52 and 86). -/
def destString (d : PyDict) : String :=
  pyToDisplay ((dictGet d ("destination")).getD .pyNone)

/-- The rsync command line joined for logging (src/worker.py lines 90-91). -/
def commandStr (d : PyDict) : String :=
  String.intercalate (" ")
    (["rsync", "-a", "--info=progress2", "--no-i-r"] ++ sourceStrings d ++ [destString d])

/-- The events the loop would emit after the cancellation-free part, and
then exit-code interpretation (src/worker.py lines 129-163): drain stderr
into a log event, re-check the cancellation flag, then inspect the code. -/
def afterLoopEvents (i : RunInput) : List REvent :=
  let name := i.schema_name
  let st := i.stderr_output
  let stderrEvs : List REvent :=
    if st == "" then [] else [.logMessage name (("STDERR: ") ++ st.trim)]
  stderrEvs ++
    (if obsAt (cancelIndex i) (i.stdout_lines.length + 1) then
      [.jobFinished name false "Cancelled"]
    else if i.return_code == 0 then
      [.progressUpdated name 100, .jobFinished name true "Completed"]
    else if i.return_code == 24 then
      (if st == "" then [] else [.logMessage name (("Warning: ") ++ st.trim)]) ++
        [.progressUpdated name 100, .jobFinished name true (warningMsg st)]
    else
      [.jobFinished name false (rsyncFailMsg i.return_code st)])

/-- `BackupWorker.run` (src/worker.py lines 36-174) as the ordered list of
events it emits plus the `spawn` marker for `subprocess.Popen`. -/
def run (i : RunInput) : List REvent :=
  let name := i.schema_name
  let startEv : REvent :=
    .logMessage name (("Starting backup for '") ++ name ++ ("'..."))
  let v := validate_schema_paths i.fs (some i.schema_data)
  if !v.1 then
    [startEv,
     .validationError name
       (("Path validation failed before starting: ") ++ String.intercalate (", ") v.2),
     .jobFinished name false "Path validation failed"]
  else
    let destination := destString i.schema_data
    match i.disk_usage with
    | .fileNotFound =>
      [startEv,
       .validationError name
         (("Destination directory '") ++ destination ++ ("' not found for disk space check.")),
       .jobFinished name false "Destination not found"]
    | .raised e =>
      [startEv,
       .diskSpaceError name
         (("Error checking disk space for '") ++ destination ++ ("': ") ++ e),
       .jobFinished name false "Disk space check error"]
    | .ok free =>
      if free < free_space_threshold then
        [startEv,
         .diskSpaceError name
           (("Insufficient disk space at destination '") ++ destination ++
             ("'. Free: ") ++ formatFreeMB free ++ (" MB")),
         .jobFinished name false "Insufficient disk space"]
      else
        let cmdLog : REvent := .logMessage name (("Running: ") ++ commandStr i.schema_data)
        match i.launch with
        | .fileNotFound =>
          [startEv, cmdLog,
           .jobFinished name false
             "rsync command not found. Please ensure rsync is installed and in your PATH."]
        | .raised e =>
          [startEv, cmdLog,
           .jobFinished name false (("An unexpected error occurred during backup: ") ++ e)]
        | .ok =>
          let out := loopRun name (cancelIndex i) i.stdout_lines 0
          [startEv, cmdLog, .spawn] ++ out.1 ++
            (if out.2 then [] else afterLoopEvents i)


/-! ### Decomposition of `run` for the ordering and terminal-event claims -/

/-- Whether the run reaches the monitor loop: pre-flight validation passed,
the disk-space check returned enough free space, and `Popen` succeeded. -/
def reachesLoop (i : RunInput) : Bool :=
  (validate_schema_paths i.fs (some i.schema_data)).1 &&
    (match i.disk_usage with
     | .ok free => decide (free_space_threshold ≤ free)
     | _ => false) &&
    (i.launch == .ok)

/-- The lines the monitor loop actually reads when its first check is check
number `k`: everything before the check at which the flag is observed. -/
def takeUntilCancel (ci : Option Nat) (k : Nat) (lines : List String) : List String :=
  match ci with
  | some j => lines.take (j - k)
  | none => lines

/-- The stdout lines whose events a run emits: none at all unless the loop
is reached, otherwise the lines read before a cancellation is observed. -/
def processedLines (i : RunInput) : List String :=
  if reachesLoop i then takeUntilCancel (cancelIndex i) 0 i.stdout_lines else []

/-- The events a run emits before any per-line event. -/
def runHead (i : RunInput) : List REvent :=
  let name := i.schema_name
  let startEv : REvent :=
    .logMessage name (("Starting backup for '") ++ name ++ ("'..."))
  if !(validate_schema_paths i.fs (some i.schema_data)).1 then [startEv]
  else
    match i.disk_usage with
    | .fileNotFound => [startEv]
    | .raised _ => [startEv]
    | .ok free =>
      if free < free_space_threshold then [startEv]
      else
        let cmdLog : REvent := .logMessage name (("Running: ") ++ commandStr i.schema_data)
        match i.launch with
        | .fileNotFound => [startEv, cmdLog]
        | .raised _ => [startEv, cmdLog]
        | .ok => [startEv, cmdLog, .spawn]

/-- The events a run emits after the last per-line event. -/
def runTail (i : RunInput) : List REvent :=
  let name := i.schema_name
  let v := validate_schema_paths i.fs (some i.schema_data)
  if !v.1 then
    [.validationError name
       (("Path validation failed before starting: ") ++ String.intercalate (", ") v.2),
     .jobFinished name false "Path validation failed"]
  else
    let destination := destString i.schema_data
    match i.disk_usage with
    | .fileNotFound =>
      [.validationError name
         (("Destination directory '") ++ destination ++ ("' not found for disk space check.")),
       .jobFinished name false "Destination not found"]
    | .raised e =>
      [.diskSpaceError name
         (("Error checking disk space for '") ++ destination ++ ("': ") ++ e),
       .jobFinished name false "Disk space check error"]
    | .ok free =>
      if free < free_space_threshold then
        [.diskSpaceError name
           (("Insufficient disk space at destination '") ++ destination ++
             ("'. Free: ") ++ formatFreeMB free ++ (" MB")),
         .jobFinished name false "Insufficient disk space"]
      else
        match i.launch with
        | .fileNotFound =>
          [.jobFinished name false
             "rsync command not found. Please ensure rsync is installed and in your PATH."]
        | .raised e =>
          [.jobFinished name false (("An unexpected error occurred during backup: ") ++ e)]
        | .ok =>
          if obsAt (cancelIndex i) i.stdout_lines.length then
            [.jobFinished name false "Cancelled"]
          else afterLoopEvents i

/-! ### The progress-line pattern -/

/-- A line matches the progress pattern when it contains, somewhere, at
least one whitespace character, then at least one digit, then a percent
sign, then at least one whitespace character — the language of the regex
`\s+(\d+)%\s+`. -/
def progressPattern (l : String) : Prop :=
  ∃ a w ds d b, l.data = a ++ w ++ ds ++ '%' :: d :: b ∧
    w ≠ [] ∧ (∀ c ∈ w, pyIsSpace c = true) ∧
    ds ≠ [] ∧ (∀ c ∈ ds, c.isDigit = true) ∧ pyIsSpace d = true

/-! ## The queue controller (src/main.py)

The controller is embedded as a state machine.  Its state holds the
pending queue (a deque of schema names), the loaded schema map
`self.schemas`, the `current_worker` slot (by worker id), and the worker
threads started so far with their running flags.  `pending` holds the ids
of workers whose `run` has returned but whose queued `finished` signal has
not yet been delivered to the control thread; `disconnected` holds the ids
whose `finished` signal was disconnected by `worker_thread_finished`
before delivery (such a signal never invokes the handler). -/

/-- A started worker thread: its id and whether `run` is still executing
(`QThread.isRunning`). -/
structure WorkerT where
  wid : Nat
  running : Bool
deriving DecidableEq, Repr

/-- The controller-relevant state of `MainWindow` (src/main.py lines
115-130), plus the bookkeeping of started threads and in-flight `finished`
signals. -/
structure CState where
  backup_queue : List String
  schemas : List (String × PyDict)
  current_worker : Option Nat
  workers : List WorkerT
  next_wid : Nat
  pending : List Nat
  disconnected : List Nat

/-- `self.schemas[name]` via membership test, as the tick handler does. -/
def lookupSchema (schemas : List (String × PyDict)) (name : String) : Option PyDict :=
  (schemas.find? (fun kv => kv.1 == name)).map (fun kv => kv.2)

/-- The worker object the slot references, if any. -/
def findWorker (s : CState) (w : Nat) : Option WorkerT :=
  s.workers.find? (fun x => x.wid == w)

/-- `self.current_worker is not None and self.current_worker.isRunning()`. -/
def slotRunning (s : CState) : Bool :=
  match s.current_worker with
  | none => false
  | some c =>
    match findWorker s c with
    | some w => w.running
    | none => false

/-- `MainWindow.queue_selected_backup` (src/main.py lines 407-426), reduced
to its queue effect: `name` is the selected schema's name and `is_valid`
its validity flag; an invalid schema is refused, a name already pending is
not appended again. -/
def queue_selected_backup (queue : List String) (name : String) (is_valid : Bool) :
    List String :=
  if !is_valid then queue
  else if name ∈ queue then queue
  else queue ++ [name]

/-- What one `process_backup_queue` tick decides (src/main.py lines
428-442): the queue after the tick, the schema data handed to
`start_backup` if a job was started, and the delay of the
`QTimer.singleShot` retry if the popped name no longer resolved. -/
structure TickOutcome where
  backup_queue : List String
  started : Option PyDict
  retry_delay_ms : Option Nat

/-- The tick period of the recurring queue check (src/main.py line 130). -/
def queue_tick_ms : Nat := 1000

/-- The bounded immediate-retry delay (src/main.py line 442). -/
def retry_delay_ms : Nat := 10

/-- `MainWindow.process_backup_queue` (src/main.py lines 428-442) as a pure
function of the parts of the state it reads: whether the slot holds a
running worker, the pending queue, and the schema map loaded at tick time.
The popped name is resolved against that map at pop time; an unresolved
name is skipped and a `retry_delay_ms` re-check is scheduled. -/
def process_backup_queue (worker_running : Bool) (queue : List String)
    (schemas : List (String × PyDict)) : TickOutcome :=
  if worker_running then ⟨queue, none, none⟩
  else
    match queue with
    | [] => ⟨queue, none, none⟩
    | name :: rest =>
      match lookupSchema schemas name with
      | some d => ⟨rest, some d, none⟩
      | none => ⟨rest, none, some retry_delay_ms⟩

/-- `MainWindow.start_backup` (src/main.py lines 444-468), on the
controller's bookkeeping: a fresh worker thread is created and started
(running), its signals connected, and the slot set to it. -/
def start_backup (s : CState) : CState :=
  { s with
    workers := ⟨s.next_wid, true⟩ :: s.workers
    current_worker := some s.next_wid
    next_wid := s.next_wid + 1 }

/-- The controller events.  `tick` is a `process_backup_queue` invocation
(the recurring timer, or a `singleShot` retry — both call the same slot).
`enqueue` is `queue_selected_backup` on a selected schema with validity
flag `is_valid`.  `runReturns w` is the moment worker `w`'s `run` method
returns: the thread stops running and its queued `finished` signal is
posted to the control thread.  `deliverFinished w` is the control thread
processing that queued signal, which invokes `worker_thread_finished`
(src/main.py lines 526-546): the handler disconnects the signals of
whatever worker currently occupies the slot and clears the slot.
`reloadSchemas` is `load_and_display_schemas` refreshing `self.schemas`
from disk (src/main.py line 348). -/
inductive CEvent where
  | tick
  | enqueue (name : String) (is_valid : Bool)
  | runReturns (w : Nat)
  | deliverFinished (w : Nat)
  | reloadSchemas (schemas : List (String × PyDict))

/-- One controller step.  Guards encode when an event can occur at all:
`runReturns w` only for a started, still-running worker (a thread's `run`
returns once); `deliverFinished w` only for a posted, still-connected
`finished` signal. -/
def step : CEvent → CState → CState
  | .tick, s =>
    if slotRunning s then s
    else
      match s.backup_queue with
      | [] => s
      | name :: rest =>
        match lookupSchema s.schemas name with
        | some _ => start_backup { s with backup_queue := rest }
        | none => { s with backup_queue := rest }
  | .enqueue name v, s =>
    { s with backup_queue := queue_selected_backup s.backup_queue name v }
  | .runReturns w, s =>
    match findWorker s w with
    | some x =>
      if x.running then
        { s with
          workers := s.workers.map (fun y => if y.wid == w then ⟨y.wid, false⟩ else y)
          pending := s.pending ++ [w] }
      else s
    | none => s
  | .deliverFinished w, s =>
    if w ∈ s.pending ∧ w ∉ s.disconnected then
      match s.current_worker with
      | some c =>
        { s with
          pending := s.pending.erase w
          current_worker := none
          disconnected := c :: s.disconnected }
      | none => { s with pending := s.pending.erase w }
    else s
  | .reloadSchemas m, s => { s with schemas := m }

/-- The controller's state at startup (src/main.py lines 115-130). -/
def initCState : CState :=
  { backup_queue := []
    schemas := []
    current_worker := none
    workers := []
    next_wid := 0
    pending := []
    disconnected := [] }

/-- The state after an event sequence, oldest event first. -/
def applyEvents (evs : List CEvent) : CState :=
  evs.foldl (fun s e => step e s) initCState

/-- The number of worker threads whose `run` is currently executing. -/
def activeJobs (s : CState) : Nat :=
  (s.workers.filter (fun w => w.running)).length

/-- Whether every `deliverFinished w` in the sequence (run from `s`) is
prompt: it is processed while worker `w` still occupies the slot.  A stale
delivery — processed after a tick has already observed the thread stopped
and installed a new worker in the slot — makes this false. -/
def promptTrace (s : CState) : List CEvent → Bool
  | [] => true
  | e :: rest =>
    (match e with
     | .deliverFinished w => s.current_worker == some w
     | _ => true) && promptTrace (step e s) rest

/-! ## The single-active-job invariant -/

/-- The controller's inductive invariant: every running worker thread is
the one the slot references, worker ids are distinct and below the id
counter, and a worker whose `finished` signal is posted has stopped. -/
def CInv (s : CState) : Prop :=
  (∀ w ∈ s.workers, w.running = true → s.current_worker = some w.wid) ∧
  (s.workers.map (fun w => w.wid)).Nodup ∧
  (∀ w ∈ s.workers, w.wid < s.next_wid) ∧
  (∀ p ∈ s.pending, ∀ w ∈ s.workers, w.wid = p → w.running = false) ∧
  (∀ p ∈ s.pending, p < s.next_wid)

/-! ### Concrete executions used to settle individual claims -/

/-- A stale-delivery execution: worker 0 finishes, a tick observes the
stopped thread and starts worker 1, and only then is worker 0's queued
`finished` signal delivered — `worker_thread_finished` clears the slot
although worker 1 is still running, so the next tick starts worker 2. -/
def staleTraceC1 : List CEvent :=
  [.reloadSchemas [("a", []), ("b", []), ("c", [])],
   .enqueue ("a") true, .tick, .runReturns 0, .enqueue ("b") true, .tick,
   .deliverFinished 0, .enqueue ("c") true, .tick]

/-- A prompt execution: worker 0's `finished` signal is delivered while
worker 0 still occupies the slot. -/
def okTraceC1 : List CEvent :=
  [.reloadSchemas [("a", [])], .enqueue ("a") true, .tick,
   .runReturns 0, .deliverFinished 0, .tick]

/-- A worker input whose pre-flight validation fails (no path exists)
while the cancellation flag is already set when `run` begins. -/
def cexInputC3 : RunInput :=
  { schema_name := "s"
    schema_data := [("schema_name", .pyStr ("s")),
                    ("sources", .pyList [.pyStr ("/src")]),
                    ("destination", .pyStr ("/dst"))]
    fs := fun _ => false
    disk_usage := .ok (200 * 1024 * 1024)
    launch := .ok
    stdout_lines := []
    cancelledBeforeStart := true
    cancelAt := none
    return_code := 0
    stderr_output := "" }

/-- A worker input that passes pre-flight and is cancelled before the
first line is read, although the subprocess exits with code 0. -/
def wInputC3 : RunInput :=
  { schema_name := "s"
    schema_data := [("schema_name", .pyStr ("s")),
                    ("sources", .pyList [.pyStr ("/src")]),
                    ("destination", .pyStr ("/dst"))]
    fs := fun _ => true
    disk_usage := .ok (200 * 1024 * 1024)
    launch := .ok
    stdout_lines := ["file\n"]
    cancelledBeforeStart := true
    cancelAt := none
    return_code := 0
    stderr_output := "" }

/-- A cancellation-free worker input whose subprocess exits with code 0. -/
def wInputC4 : RunInput :=
  { schema_name := "s"
    schema_data := [("schema_name", .pyStr ("s")),
                    ("sources", .pyList [.pyStr ("/src")]),
                    ("destination", .pyStr ("/dst"))]
    fs := fun _ => true
    disk_usage := .ok (200 * 1024 * 1024)
    launch := .ok
    stdout_lines := [" 50% \n"]
    cancelledBeforeStart := false
    cancelAt := none
    return_code := 0
    stderr_output := "" }

/-- A worker input whose pre-flight validation fails. -/
def wInputC5 : RunInput :=
  { schema_name := "s"
    schema_data := [("schema_name", .pyStr ("s")),
                    ("sources", .pyList [.pyStr ("/missing")]),
                    ("destination", .pyStr ("/dst"))]
    fs := fun _ => false
    disk_usage := .ok (200 * 1024 * 1024)
    launch := .ok
    stdout_lines := []
    cancelledBeforeStart := false
    cancelAt := none
    return_code := 0
    stderr_output := "" }

/-- A worker input whose subprocess emits a line whose progress-pattern
match captures the integer 435. -/
def cexInputC9 : RunInput :=
  { schema_name := "s"
    schema_data := [("schema_name", .pyStr ("s")),
                    ("sources", .pyList [.pyStr ("/src")]),
                    ("destination", .pyStr ("/dst"))]
    fs := fun _ => true
    disk_usage := .ok (200 * 1024 * 1024)
    launch := .ok
    stdout_lines := [(" 435% \n")]
    cancelledBeforeStart := false
    cancelAt := none
    return_code := 0
    stderr_output := "" }


lemma no_running_of_slot_free (s : CState)
    (h1 : ∀ w ∈ s.workers, w.running = true → s.current_worker = some w.wid)
    (h2 : (s.workers.map (fun w => w.wid)).Nodup)
    (hg : slotRunning s = false) :
    ∀ w ∈ s.workers, w.running = false := by
  intro w hw
  by_contra hr
  have hr' : w.running = true := by revert hr; cases w.running <;> simp
  have hc := h1 w hw hr'
  have hf : findWorker s w.wid ≠ none := by
    intro hn
    unfold findWorker at hn
    rw [List.find?_eq_none] at hn
    exact hn w hw (by simp)
  obtain ⟨u, hu⟩ := Option.ne_none_iff_exists'.mp hf
  have hum : u ∈ s.workers := List.mem_of_find?_eq_some hu
  have huw : u.wid = w.wid := by simpa using List.find?_some hu
  have huw' : u = w := List.inj_on_of_nodup_map h2 hum hw huw
  have hgr : slotRunning s = u.running := by
    unfold slotRunning
    rw [hc]
    simp [hu]
  rw [hg, huw'] at hgr
  rw [← hgr] at hr'
  cases hr'

lemma activeJobs_le_one_of_inv (s : CState) (h : CInv s) : activeJobs s ≤ 1 := by
  obtain ⟨h1, h2, -, -, -⟩ := h
  unfold activeJobs
  rcases hf : s.workers.filter (fun w => w.running) with - | ⟨a, - | ⟨b, t⟩⟩
  · simp [hf]
  · simp [hf]
  · exfalso
    have hsub := (List.filter_sublist (l := s.workers) (p := fun w => w.running)).map
      (fun w => w.wid)
    have hnd := List.Nodup.sublist hsub h2
    rw [hf] at hnd
    have ha : a ∈ s.workers.filter (fun w => w.running) := by rw [hf]; simp
    have hb : b ∈ s.workers.filter (fun w => w.running) := by rw [hf]; simp
    have ham := List.mem_filter.mp ha
    have hbm := List.mem_filter.mp hb
    have hca := h1 a ham.1 (by simpa using ham.2)
    have hcb := h1 b hbm.1 (by simpa using hbm.2)
    have hab : a.wid = b.wid := by
      rw [hca] at hcb
      exact Option.some.inj hcb
    simp only [List.map_cons, List.nodup_cons, List.mem_cons, List.mem_map] at hnd
    exact hnd.1 (Or.inl hab)

lemma inv_init : CInv initCState := by
  refine ⟨?_, ?_, ?_, ?_, ?_⟩ <;> simp [initCState]


lemma inv_step (e : CEvent) (s : CState) (h : CInv s)
    (hp : ∀ w, e = .deliverFinished w → s.current_worker = some w) :
    CInv (step e s) := by
  obtain ⟨h1, h2, h3, h4, h5⟩ := h
  cases e with
  | tick =>
    simp only [step]
    split
    · exact ⟨h1, h2, h3, h4, h5⟩
    · rename_i hg
      have hg' : slotRunning s = false := by simpa using hg
      have hnr := no_running_of_slot_free s h1 h2 hg'
      split
      · exact ⟨h1, h2, h3, h4, h5⟩
      · split
        · unfold start_backup
          refine ⟨?_, ?_, ?_, ?_, ?_⟩
          · intro w hw hr
            rcases List.mem_cons.mp hw with hweq | hmem
            · rw [hweq]
            · rw [hnr w hmem] at hr
              cases hr
          · simp only [List.map_cons]
            refine List.nodup_cons.mpr ⟨?_, h2⟩
            intro hmem
            rw [List.mem_map] at hmem
            obtain ⟨w, hw, hwid⟩ := hmem
            have := h3 w hw
            omega
          · intro w hw
            rcases List.mem_cons.mp hw with hweq | hmem
            · rw [hweq]
              exact Nat.lt_succ_self _
            · exact Nat.lt_succ_of_lt (h3 w hmem)
          · intro p hp0 w hw hwid
            rcases List.mem_cons.mp hw with hweq | hmem
            · exfalso
              have hlt := h5 p hp0
              rw [hweq] at hwid
              simp only [WorkerT.wid] at hwid
              omega
            · exact h4 p hp0 w hmem hwid
          · intro p hp0
            exact Nat.lt_succ_of_lt (h5 p hp0)
        · exact ⟨h1, h2, h3, h4, h5⟩
  | enqueue name v => exact ⟨h1, h2, h3, h4, h5⟩
  | reloadSchemas m => exact ⟨h1, h2, h3, h4, h5⟩
  | runReturns w =>
    simp only [step]
    split
    · rename_i x hf
      have hxm : x ∈ s.workers := List.mem_of_find?_eq_some hf
      have hxw : x.wid = w := by simpa using List.find?_some hf
      split
      · refine ⟨?_, ?_, ?_, ?_, ?_⟩
        · intro y' hy'
          rw [List.mem_map] at hy'
          obtain ⟨y, hy, hyeq⟩ := hy'
          by_cases hb : y.wid = w
          · rw [if_pos (by simpa using hb)] at hyeq
            intro hr
            rw [← hyeq] at hr
            cases hr
          · rw [if_neg (by simpa using hb)] at hyeq
            rw [← hyeq]
            exact h1 y hy
        · have hmw : (s.workers.map
              (fun y => if y.wid == w then (⟨y.wid, false⟩ : WorkerT) else y)).map
              (fun y => y.wid) = s.workers.map (fun y => y.wid) := by
            rw [List.map_map]
            apply List.map_congr_left
            intro y _
            by_cases hb : y.wid = w
            · simp [hb]
            · simp [hb]
          rw [hmw]
          exact h2
        · intro y' hy'
          rw [List.mem_map] at hy'
          obtain ⟨y, hy, hyeq⟩ := hy'
          have hwid : y'.wid = y.wid := by
            rw [← hyeq]
            by_cases hb : y.wid = w
            · rw [if_pos (by simpa using hb)]
            · rw [if_neg (by simpa using hb)]
          rw [hwid]
          exact h3 y hy
        · intro p hp0 y' hy' hwid
          rw [List.mem_map] at hy'
          obtain ⟨y, hy, hyeq⟩ := hy'
          by_cases hb : y.wid = w
          · rw [if_pos (by simpa using hb)] at hyeq
            rw [← hyeq]
          · rw [if_neg (by simpa using hb)] at hyeq
            rcases List.mem_append.mp hp0 with hin | hw0
            · rw [← hyeq]
              rw [← hyeq] at hwid
              exact h4 p hin y hy hwid
            · exfalso
              have hpw : p = w := by simpa using hw0
              rw [← hyeq] at hwid
              rw [hpw] at hwid
              exact hb hwid
        · intro p hp0
          rcases List.mem_append.mp hp0 with hin | hw0
          · exact h5 p hin
          · have hpw : p = w := by simpa using hw0
            rw [hpw, ← hxw]
            exact h3 x hxm
      · exact ⟨h1, h2, h3, h4, h5⟩
    · exact ⟨h1, h2, h3, h4, h5⟩
  | deliverFinished w =>
    have hcw := hp w rfl
    simp only [step]
    split
    · rename_i hcond
      rw [hcw]
      refine ⟨?_, h2, h3, ?_, ?_⟩
      · intro y hy hr
        exfalso
        have hcy := h1 y hy hr
        rw [hcw] at hcy
        have hyw : y.wid = w := (Option.some.inj hcy).symm
        have := h4 w hcond.1 y hy hyw
        rw [this] at hr
        cases hr
      · intro p hp0 y hy hwid
        exact h4 p (s.pending.mem_of_mem_erase hp0) y hy hwid
      · intro p hp0
        exact h5 p (s.pending.mem_of_mem_erase hp0)
    · exact ⟨h1, h2, h3, h4, h5⟩

lemma inv_fold (evs : List CEvent) : ∀ s : CState, CInv s → promptTrace s evs = true →
    CInv (evs.foldl (fun s e => step e s) s) := by
  induction evs with
  | nil =>
    intro s h _
    simpa using h
  | cons e rest ih =>
    intro s h hpt
    unfold promptTrace at hpt
    rw [Bool.and_eq_true] at hpt
    rw [List.foldl_cons]
    refine ih (step e s) (inv_step e s h ?_) hpt.2
    intro w hew
    rw [hew] at hpt
    exact eq_of_beq hpt.1

/-- Claim C1, counterexample: the claim promises at most one
actively-running Job at every instant of any execution, but the execution
`staleTraceC1` — in which worker 0's queued `finished` signal is delivered
only after a tick has already observed the stopped thread and started
worker 1, so `worker_thread_finished` clears the slot while worker 1 still
runs and the next tick starts worker 2 — reaches two concurrently running
workers. -/
theorem claim_C1_counterexample :
    activeJobs (applyEvents staleTraceC1) = 2 ∧
    promptTrace initCState staleTraceC1 = false := by decide

/-- Claim C1, amended: in every execution in which each worker's
`finished` signal is delivered while that worker still occupies the
`current_worker` slot (no stale deliveries), the number of
actively-running Jobs never exceeds one. -/
theorem claim_C1_amended (evs : List CEvent)
    (h : promptTrace initCState evs = true) :
    activeJobs (applyEvents evs) ≤ 1 :=
  activeJobs_le_one_of_inv _ (inv_fold evs initCState inv_init h)

/-- Witness for the amended claim C1 at a concrete prompt execution. -/
theorem claim_C1_witness :
    promptTrace initCState okTraceC1 = true ∧ activeJobs (applyEvents okTraceC1) ≤ 1 :=
  ⟨by decide, claim_C1_amended okTraceC1 (by decide)⟩

/-- Claim C7: enqueueing a schema name already present in the pending
queue leaves the queue unchanged, enqueueing a schema currently marked
invalid leaves the queue unchanged, and the enqueue operation preserves
the no-duplicates invariant of the pending queue. -/
theorem claim_C7 (queue : List String) (name : String) (is_valid : Bool) :
    (name ∈ queue → queue_selected_backup queue name is_valid = queue) ∧
    (is_valid = false → queue_selected_backup queue name is_valid = queue) ∧
    (queue.Nodup → (queue_selected_backup queue name is_valid).Nodup) := by
  refine ⟨?_, ?_, ?_⟩
  · intro hmem
    cases is_valid with
    | false => simp [queue_selected_backup]
    | true => simp [queue_selected_backup, hmem]
  · intro hv
    rw [hv]
    simp [queue_selected_backup]
  · intro hnd
    unfold queue_selected_backup
    split
    · exact hnd
    · split
      · exact hnd
      · rename_i hni
        refine List.Nodup.append hnd (List.nodup_singleton name) ?_
        intro a ha hb
        rw [List.mem_singleton] at hb
        exact hni (hb ▸ ha)

/-- Witness for claim C7: enqueueing an already-pending name is a no-op. -/
theorem claim_C7_witness :
    ("a" : String) ∈ ["a"] ∧ queue_selected_backup ["a"] ("a") true = ["a"] :=
  ⟨by decide, (claim_C7 ["a"] ("a") true).1 (by decide)⟩

/-- Claim C8: a queue tick that dequeues a schema name resolves the name
against the schema map as loaded at tick (pop) time — the queue itself
stores only names, so no data captured at enqueue time can be used — and
hands exactly that data to `start_backup`; if the name no longer resolves,
nothing is started, the entry stays removed, and a re-check is scheduled
after `retry_delay_ms` (10 ms), strictly sooner than the full
`queue_tick_ms` (1000 ms) tick period. -/
theorem claim_C8 (name : String) (rest : List String)
    (schemas : List (String × PyDict)) :
    (∀ d : PyDict, lookupSchema schemas name = some d →
      process_backup_queue false (name :: rest) schemas = ⟨rest, some d, none⟩) ∧
    (lookupSchema schemas name = none →
      process_backup_queue false (name :: rest) schemas =
          ⟨rest, none, some retry_delay_ms⟩ ∧
        retry_delay_ms < queue_tick_ms) := by
  constructor
  · intro d hd
    simp [process_backup_queue, hd]
  · intro hd
    refine ⟨?_, by decide⟩
    simp [process_backup_queue, hd]

/-- Witness for claim C8 at a concrete map: the popped name resolves to
the data loaded at pop time. -/
theorem claim_C8_witness :
    lookupSchema [(("a" : String), ([("destination", PyValue.pyStr ("/d"))] : PyDict))] ("a") =
        some [("destination", PyValue.pyStr ("/d"))] ∧
      process_backup_queue false ["a"] [("a", [("destination", PyValue.pyStr ("/d"))])] =
        ⟨[], some [("destination", PyValue.pyStr ("/d"))], none⟩ :=
  ⟨by rfl,
   (claim_C8 ("a") [] [(("a" : String), ([("destination", PyValue.pyStr ("/d"))] : PyDict))]).1
     [("destination", PyValue.pyStr ("/d"))] (by rfl)⟩

/-- Claim C10: calling the validator with `None` or an empty (falsy)
schema dict yields `is_valid = False` together with the single problem
string "Schema data is empty". -/
theorem claim_C10 (fs : String → Bool) :
    validate_schema_paths fs none = (false, ["Schema data is empty"]) ∧
    validate_schema_paths fs (some []) = (false, ["Schema data is empty"]) :=
  ⟨rfl, rfl⟩

lemma validate_some (fs : String → Bool) (d : PyDict) (hde : d.isEmpty = false) :
    validate_schema_paths fs (some d) =
      ((invalidPathsOf fs d).isEmpty, invalidPathsOf fs d) := by
  simp [validate_schema_paths, hde]

/-- Claim C6: the validator never raises (it is total by construction in
this embedding); `is_valid` is true iff the problems list is empty; a
non-existing destination path appears in the problems list (as its
"Destination: " problem), and every non-existing string source path
appears in the problems list (as its "Source: " problem), and in either
case `is_valid` is false. -/
theorem claim_C6 (fs : String → Bool) (schema_data : Option PyDict) :
    ((validate_schema_paths fs schema_data).1 = true ↔
      (validate_schema_paths fs schema_data).2 = []) ∧
    (∀ d : PyDict, ∀ ds : String, schema_data = some d → d ≠ [] →
      dictGet d ("destination") = some (.pyStr ds) → ds ≠ "" → fs ds = false →
      (validate_schema_paths fs schema_data).1 = false ∧
        (("Destination: ") ++ ds) ∈ (validate_schema_paths fs schema_data).2) ∧
    (∀ d : PyDict, ∀ l : List PyValue, ∀ s : String, schema_data = some d → d ≠ [] →
      dictGet d ("sources") = some (.pyList l) → (.pyStr s) ∈ l → fs s = false →
      (validate_schema_paths fs schema_data).1 = false ∧
        (("Source: ") ++ s) ∈ (validate_schema_paths fs schema_data).2) := by
  refine ⟨?_, ?_, ?_⟩
  · cases schema_data with
    | none => simp [validate_schema_paths]
    | some d =>
      cases hde : d.isEmpty with
      | true => simp [validate_schema_paths, hde]
      | false =>
        rw [validate_some fs d hde]
        exact List.isEmpty_iff
  · intro d ds hsd hdne hdest hdsne hfs
    subst hsd
    have hde : d.isEmpty = false := by
      cases d with
      | nil => exact absurd rfl hdne
      | cons a t => rfl
    have hb : (ds == "") = false := by
      rw [beq_eq_false_iff_ne]
      exact hdsne
    have hmem : (("Destination: ") ++ ds) ∈ invalidPathsOf fs d := by
      unfold invalidPathsOf
      refine List.mem_append.mpr (Or.inl (List.mem_append.mpr (Or.inr ?_)))
      rw [hdest]
      simp [destProblemOf, pyFalsy, isPyStr, hb, hfs]
    rw [validate_some fs d hde]
    have hnn : invalidPathsOf fs d ≠ [] := List.ne_nil_of_mem hmem
    constructor
    · cases hie : (invalidPathsOf fs d).isEmpty with
      | true => exact absurd (List.isEmpty_iff.mp hie) hnn
      | false => rfl
    · exact hmem
  · intro d l s hsd hdne hsrc hsl hfs
    subst hsd
    have hde : d.isEmpty = false := by
      cases d with
      | nil => exact absurd rfl hdne
      | cons a t => rfl
    have hmem : (("Source: ") ++ s) ∈ invalidPathsOf fs d := by
      unfold invalidPathsOf
      refine List.mem_append.mpr (Or.inr ?_)
      rw [hsrc]
      refine List.mem_flatMap.mpr ⟨.pyStr s, ?_, ?_⟩
      · simpa [sourcesListOf] using hsl
      · simp [hfs]
    rw [validate_some fs d hde]
    have hnn : invalidPathsOf fs d ≠ [] := List.ne_nil_of_mem hmem
    constructor
    · cases hie : (invalidPathsOf fs d).isEmpty with
      | true => exact absurd (List.isEmpty_iff.mp hie) hnn
      | false => rfl
    · exact hmem

/-- Witness for claim C6: a non-existing destination path is reported. -/
theorem claim_C6_witness :
    (("Destination: ") ++ "/d") ∈
      (validate_schema_paths (fun _ => false)
        (some [("destination", PyValue.pyStr ("/d"))])).2 :=
  ((claim_C6 (fun _ => false) (some [("destination", PyValue.pyStr ("/d"))])).2.1
    [("destination", PyValue.pyStr ("/d"))] ("/d") rfl (List.cons_ne_nil _ _) rfl (by decide) rfl).2

lemma loopRun_none (name : String) :
    ∀ (lines : List String) (k : Nat),
      loopRun name none lines k = (lines.flatMap (lineEvents name), false) := by
  intro lines
  induction lines with
  | nil =>
    intro k
    unfold loopRun
    simp [obsAt]
  | cons l rest ih =>
    intro k
    unfold loopRun
    simp only [obsAt]
    rw [List.flatMap_cons]
    simp [ih (k + 1)]

lemma loopRun_some (name : String) (j : Nat) :
    ∀ (lines : List String) (k : Nat),
      loopRun name (some j) lines k =
        ((lines.take (j - k)).flatMap (lineEvents name) ++
          (if j ≤ k + lines.length then [.jobFinished name false "Cancelled"] else []),
         decide (j ≤ k + lines.length)) := by
  intro lines
  induction lines with
  | nil =>
    intro k
    unfold loopRun
    by_cases hjk : j ≤ k
    · simp [obsAt, hjk]
    · simp [obsAt, hjk]
  | cons l rest ih =>
    intro k
    unfold loopRun
    by_cases hjk : j ≤ k
    · have h0 : j - k = 0 := by omega
      have h1 : j ≤ k + (rest.length + 1) := by omega
      simp [obsAt, hjk, h0, h1]
    · have hobs : obsAt (some j) k = false := by simp [obsAt, hjk]
      rw [hobs]
      simp only [Bool.false_eq_true, if_false]
      rw [ih (k + 1)]
      have htake : (l :: rest).take (j - k) = l :: rest.take (j - (k + 1)) := by
        have hjk1 : j - k = (j - (k + 1)) + 1 := by omega
        rw [hjk1, List.take_succ_cons]
      have hlen : k + (l :: rest).length = (k + 1) + rest.length := by
        simp only [List.length_cons]
        omega
      rw [htake, hlen, List.flatMap_cons, List.append_assoc]

lemma run_decomp (i : RunInput) :
    run i = runHead i ++ (processedLines i).flatMap (lineEvents i.schema_name) ++ runTail i := by
  obtain ⟨name, sd, fs, du, la, lines, cbs, ca, rc, st⟩ := i
  simp only [run, runHead, processedLines, runTail, reachesLoop, cancelIndex]
  by_cases hv : (validate_schema_paths fs (some sd)).1 = true
  · cases du with
    | fileNotFound => simp [hv]
    | raised e => simp [hv]
    | ok free =>
      by_cases hth : free < free_space_threshold
      · have hth' : ¬ free_space_threshold ≤ free := by omega
        simp [hv, hth, hth']
      · have hth' : free_space_threshold ≤ free := by omega
        cases la with
        | fileNotFound => simp [hv, hth, hth']
        | raised e2 => simp [hv, hth, hth']
        | ok =>
          cases cbs with
          | true =>
            simp [hv, hth, hth', loopRun_some, takeUntilCancel, obsAt]
          | false =>
            cases ca with
            | none =>
              simp [hv, hth, hth', loopRun_none, takeUntilCancel, obsAt]
            | some j =>
              by_cases hobs : j ≤ lines.length
              · simp [hv, hth, hth', loopRun_some, takeUntilCancel, obsAt, hobs]
              · simp [hv, hth, hth', loopRun_some, takeUntilCancel, obsAt, hobs]
  · have hv' : (validate_schema_paths fs (some sd)).1 = false := by
      revert hv
      cases (validate_schema_paths fs (some sd)).1 <;> simp
    simp [hv']

lemma countP_lineEvents (name l : String) :
    (lineEvents name l).countP isFinishedEv = 0 := by
  unfold lineEvents
  cases h : (l == "") with
  | true => rfl
  | false =>
    cases hp : searchPercent l with
    | none => rfl
    | some p => rfl

lemma countP_flatMap_lineEvents (name : String) (ls : List String) :
    (ls.flatMap (lineEvents name)).countP isFinishedEv = 0 := by
  induction ls with
  | nil => rfl
  | cons l t ih =>
    rw [List.flatMap_cons, List.countP_append, ih, countP_lineEvents]

lemma countP_runHead (i : RunInput) : (runHead i).countP isFinishedEv = 0 := by
  obtain ⟨name, sd, fs, du, la, lines, cbs, ca, rc, st⟩ := i
  unfold runHead
  by_cases hv : (validate_schema_paths fs (some sd)).1 = true
  · cases du with
    | fileNotFound => simp [hv, isFinishedEv]
    | raised e => simp [hv, isFinishedEv]
    | ok free =>
      by_cases hth : free < free_space_threshold
      · simp [hv, hth, isFinishedEv]
      · cases la with
        | fileNotFound => simp [hv, hth, isFinishedEv, List.countP_cons]
        | raised e2 => simp [hv, hth, isFinishedEv, List.countP_cons]
        | ok => simp [hv, hth, isFinishedEv, List.countP_cons]
  · have hv' : (validate_schema_paths fs (some sd)).1 = false := by
      revert hv
      cases (validate_schema_paths fs (some sd)).1 <;> simp
    simp [hv', isFinishedEv]

lemma countP_afterLoop (i : RunInput) : (afterLoopEvents i).countP isFinishedEv = 1 := by
  unfold afterLoopEvents
  cases hst : (i.stderr_output == "") <;>
    cases hobs : obsAt (cancelIndex i) (i.stdout_lines.length + 1) <;>
      by_cases h0 : i.return_code = 0 <;>
        by_cases h24 : i.return_code = 24 <;>
          simp [hst, hobs, h0, h24, isFinishedEv, List.countP_cons, List.countP_append]

lemma countP_runTail (i : RunInput) : (runTail i).countP isFinishedEv = 1 := by
  have hafter := countP_afterLoop i
  obtain ⟨name, sd, fs, du, la, lines, cbs, ca, rc, st⟩ := i
  unfold runTail
  by_cases hv : (validate_schema_paths fs (some sd)).1 = true
  · cases du with
    | fileNotFound => simp [hv, isFinishedEv, List.countP_cons]
    | raised e => simp [hv, isFinishedEv, List.countP_cons]
    | ok free =>
      by_cases hth : free < free_space_threshold
      · simp [hv, hth, isFinishedEv, List.countP_cons]
      · cases la with
        | fileNotFound => simp [hv, hth, isFinishedEv, List.countP_cons]
        | raised e2 => simp [hv, hth, isFinishedEv, List.countP_cons]
        | ok =>
          cases hobs : obsAt (cancelIndex ⟨name, sd, fs, .ok free, .ok, lines, cbs, ca, rc, st⟩)
              lines.length with
          | true => simp [hv, hth, hobs, isFinishedEv, List.countP_cons]
          | false => simpa [hv, hth, hobs] using hafter
  · have hv' : (validate_schema_paths fs (some sd)).1 = false := by
      revert hv
      cases (validate_schema_paths fs (some sd)).1 <;> simp
    simp [hv', isFinishedEv, List.countP_cons]

lemma append_last (name : String) (A B : List REvent)
    (h : ∃ t b stx, B = t ++ [REvent.jobFinished name b stx]) :
    ∃ t b stx, A ++ B = t ++ [REvent.jobFinished name b stx] := by
  obtain ⟨t, b, stx, rfl⟩ := h
  exact ⟨A ++ t, b, stx, by rw [List.append_assoc]⟩

lemma afterLoop_last (i : RunInput) :
    ∃ t b stx, afterLoopEvents i = t ++ [REvent.jobFinished i.schema_name b stx] := by
  unfold afterLoopEvents
  apply append_last
  cases hobs : obsAt (cancelIndex i) (i.stdout_lines.length + 1) with
  | true => exact ⟨[], false, "Cancelled", rfl⟩
  | false =>
    by_cases h0 : i.return_code = 0
    · simp only [h0]
      exact ⟨[.progressUpdated i.schema_name 100], true, "Completed", rfl⟩
    · have e0 : (i.return_code == 0) = false := by
        rw [beq_eq_false_iff_ne]
        exact h0
      by_cases h24 : i.return_code = 24
      · simp only [e0, h24]
        apply append_last
        exact ⟨[.progressUpdated i.schema_name 100], true, _, rfl⟩
      · have e24 : (i.return_code == 24) = false := by
          rw [beq_eq_false_iff_ne]
          exact h24
        simp only [e0, e24]
        exact ⟨[], false, _, rfl⟩

lemma one_last (name : String) (b : Bool) (stx : String) :
    ∃ t b2 stx2, [REvent.jobFinished name b stx] =
      t ++ [REvent.jobFinished name b2 stx2] :=
  ⟨[], b, stx, rfl⟩

lemma two_last (a : REvent) (name : String) (b : Bool) (stx : String) :
    ∃ t b2 stx2, [a, REvent.jobFinished name b stx] =
      t ++ [REvent.jobFinished name b2 stx2] :=
  ⟨[a], b, stx, rfl⟩

lemma runTail_last (i : RunInput) :
    ∃ t b stx, runTail i = t ++ [REvent.jobFinished i.schema_name b stx] := by
  have hafter := afterLoop_last i
  obtain ⟨name, sd, fs, du, la, lines, cbs, ca, rc, st⟩ := i
  unfold runTail
  by_cases hv : (validate_schema_paths fs (some sd)).1 = true
  · cases du with
    | fileNotFound =>
      simp only [hv, Bool.not_true, Bool.false_eq_true, if_false]
      exact two_last _ _ _ _
    | raised e =>
      simp only [hv, Bool.not_true, Bool.false_eq_true, if_false]
      exact two_last _ _ _ _
    | ok free =>
      by_cases hth : free < free_space_threshold
      · simp only [hv, Bool.not_true, Bool.false_eq_true, if_false, if_pos hth]
        exact two_last _ _ _ _
      · cases la with
        | fileNotFound =>
          simp only [hv, Bool.not_true, Bool.false_eq_true, if_false, if_neg hth]
          exact one_last _ _ _
        | raised e2 =>
          simp only [hv, Bool.not_true, Bool.false_eq_true, if_false, if_neg hth]
          exact one_last _ _ _
        | ok =>
          cases hobs : obsAt (cancelIndex ⟨name, sd, fs, .ok free, .ok, lines, cbs, ca, rc, st⟩)
              lines.length with
          | true =>
            simp only [hv, Bool.not_true, Bool.false_eq_true, if_false, if_neg hth, hobs,
              if_true]
            exact one_last _ _ _
          | false =>
            obtain ⟨t, b, stx, ht⟩ := hafter
            exact ⟨t, b, stx, by simp [hv, hth, hobs, ht]⟩
  · have hv' : (validate_schema_paths fs (some sd)).1 = false := by
      revert hv
      cases (validate_schema_paths fs (some sd)).1 <;> simp
    simp only [hv', Bool.not_false, if_true]
    exact two_last _ _ _ _

/-- Claim C2: every execution path of the worker emits exactly one
terminal `jobFinished` event; that terminal event is the last event
emitted (nothing — no log, progress or other event — follows it); and the
per-line log/progress events appear between the fixed head and tail of
the run, as the in-order concatenation of each processed line's events,
none of which is terminal. -/
theorem claim_C2 (i : RunInput) :
    (run i).countP isFinishedEv = 1 ∧
    (∃ pre b stx, run i = pre ++ [REvent.jobFinished i.schema_name b stx]) ∧
    run i = runHead i ++ (processedLines i).flatMap (lineEvents i.schema_name) ++ runTail i ∧
    ((processedLines i).flatMap (lineEvents i.schema_name)).countP isFinishedEv = 0 := by
  refine ⟨?_, ?_, run_decomp i, countP_flatMap_lineEvents _ _⟩
  · rw [run_decomp i, List.countP_append, List.countP_append, countP_runHead,
      countP_flatMap_lineEvents, countP_runTail]
  · rw [run_decomp i]
    apply append_last
    exact runTail_last i

lemma filter_fin_nil (l : List REvent) (h : l.countP isFinishedEv = 0) :
    l.filter isFinishedEv = [] := by
  rw [List.filter_eq_nil_iff]
  rw [List.countP_eq_zero] at h
  exact h

lemma runTail_cancelled (i : RunInput)
    (hv : (validate_schema_paths i.fs (some i.schema_data)).1 = true)
    (free : Nat) (hd : i.disk_usage = .ok free) (hth : free_space_threshold ≤ free)
    (hl : i.launch = .ok)
    (hobs : obsAt (cancelIndex i) (i.stdout_lines.length + 1) = true) :
    ∃ t0, runTail i = t0 ++ [REvent.jobFinished i.schema_name false "Cancelled"] ∧
      t0.countP isFinishedEv = 0 := by
  have hth' : ¬ free < free_space_threshold := by omega
  unfold runTail
  cases hobsn : obsAt (cancelIndex i) i.stdout_lines.length with
  | true =>
    refine ⟨[], ?_, rfl⟩
    simp [hv, hd, hth', hl, hobsn]
  | false =>
    refine ⟨(if (i.stderr_output == "") = true then ([] : List REvent)
        else [.logMessage i.schema_name (("STDERR: ") ++ i.stderr_output.trim)]), ?_, ?_⟩
    · simp [hv, hd, hth', hl, hobsn, afterLoopEvents, hobs]
    · cases hst : (i.stderr_output == "") <;> simp [hst, isFinishedEv]

/-- Claim C3, counterexample: the claim promises a "Cancelled" terminal
for every Job whose cancellation flag is set before it reaches a terminal
state, but a Job whose flag is already set when `run` begins and whose
pre-flight validation fails emits the terminal "Path validation failed"
(success = false) — the flag is only polled inside the read loop, which a
pre-flight failure never reaches. -/
theorem claim_C3_counterexample :
    cexInputC3.cancelledBeforeStart = true ∧
    (run cexInputC3).filter isFinishedEv =
      [REvent.jobFinished ("s") false "Path validation failed"] ∧
    ("Path validation failed" : String) ≠ "Cancelled" := by
  refine ⟨rfl, by decide, by decide⟩

/-- Claim C3, amended: for every Job that passes pre-flight and launches
its subprocess, if the cancellation flag is observed set at one of the
polling points (the top-of-loop checks or the post-exit re-check), the
one terminal event is "Cancelled" with success = false — never "failed"
or "success", even when the subprocess exited with code 0; a Job whose
flag is set but whose pre-flight checks fail emits that pre-flight
failure terminal instead. -/
theorem claim_C3_amended (i : RunInput)
    (hv : (validate_schema_paths i.fs (some i.schema_data)).1 = true)
    (free : Nat) (hd : i.disk_usage = .ok free) (hth : free_space_threshold ≤ free)
    (hl : i.launch = .ok)
    (hobs : obsAt (cancelIndex i) (i.stdout_lines.length + 1) = true) :
    (run i).filter isFinishedEv = [REvent.jobFinished i.schema_name false "Cancelled"] ∧
    ∃ pre, run i = pre ++ [REvent.jobFinished i.schema_name false "Cancelled"] := by
  obtain ⟨t0, ht0, hcnt⟩ := runTail_cancelled i hv free hd hth hl hobs
  have hdec := run_decomp i
  have hhead := filter_fin_nil _ (countP_runHead i)
  have hflat := filter_fin_nil _ (countP_flatMap_lineEvents i.schema_name (processedLines i))
  have ht0f := filter_fin_nil _ hcnt
  constructor
  · rw [hdec, ht0]
    simp [List.filter_append, hhead, hflat, ht0f, isFinishedEv]
  · refine ⟨runHead i ++ (processedLines i).flatMap (lineEvents i.schema_name) ++ t0, ?_⟩
    rw [hdec, ht0]
    simp [List.append_assoc]

/-- Witness for the amended claim C3: a Job cancelled before its first
line read, whose subprocess exits with code 0, still ends "Cancelled". -/
theorem claim_C3_witness :
    wInputC3.return_code = 0 ∧
    obsAt (cancelIndex wInputC3) (wInputC3.stdout_lines.length + 1) = true ∧
    (run wInputC3).filter isFinishedEv =
      [REvent.jobFinished ("s") false "Cancelled"] :=
  ⟨rfl, by decide,
   (claim_C3_amended wInputC3 (by decide) (200 * 1024 * 1024) rfl (by decide) rfl
     (by decide)).1⟩

/-- Claim C4: for a Job that passes pre-flight, launches, and is never
cancelled — exit code 0 produces a progress-100 event immediately followed
by the terminal success event "Completed"; exit code 24 produces the
progress-100 event immediately followed by the terminal partial-success
event carrying the drained stderr text (`warningMsg`); any other exit code
produces the terminal failure event carrying the code and the drained
stderr text (`rsyncFailMsg`). -/
theorem claim_C4 (i : RunInput)
    (hv : (validate_schema_paths i.fs (some i.schema_data)).1 = true)
    (free : Nat) (hd : i.disk_usage = .ok free) (hth : free_space_threshold ≤ free)
    (hl : i.launch = .ok)
    (hc : cancelIndex i = none) :
    (i.return_code = 0 →
      ∃ pre, run i = pre ++ [REvent.progressUpdated i.schema_name 100,
        REvent.jobFinished i.schema_name true "Completed"]) ∧
    (i.return_code = 24 →
      ∃ pre, run i = pre ++ [REvent.progressUpdated i.schema_name 100,
        REvent.jobFinished i.schema_name true (warningMsg i.stderr_output)]) ∧
    (i.return_code ≠ 0 → i.return_code ≠ 24 →
      ∃ pre, run i = pre ++
        [REvent.jobFinished i.schema_name false
          (rsyncFailMsg i.return_code i.stderr_output)]) := by
  have hth' : ¬ free < free_space_threshold := by omega
  have hdec := run_decomp i
  have htail : runTail i = afterLoopEvents i := by
    unfold runTail
    simp [hv, hd, hth', hl, hc, obsAt]
  refine ⟨?_, ?_, ?_⟩
  · intro h0
    refine ⟨runHead i ++ (processedLines i).flatMap (lineEvents i.schema_name) ++
      (if (i.stderr_output == "") = true then ([] : List REvent)
        else [REvent.logMessage i.schema_name (("STDERR: ") ++ i.stderr_output.trim)]), ?_⟩
    rw [hdec, htail]
    unfold afterLoopEvents
    simp [hc, obsAt, h0, List.append_assoc]
  · intro h24
    refine ⟨runHead i ++ (processedLines i).flatMap (lineEvents i.schema_name) ++
      ((if (i.stderr_output == "") = true then ([] : List REvent)
        else [REvent.logMessage i.schema_name (("STDERR: ") ++ i.stderr_output.trim)]) ++
       (if (i.stderr_output == "") = true then ([] : List REvent)
        else [REvent.logMessage i.schema_name (("Warning: ") ++ i.stderr_output.trim)])), ?_⟩
    rw [hdec, htail]
    unfold afterLoopEvents
    simp [hc, obsAt, h24, List.append_assoc]
  · intro h0 h24
    have e0 : (i.return_code == 0) = false := by
      rw [beq_eq_false_iff_ne]
      exact h0
    have e24 : (i.return_code == 24) = false := by
      rw [beq_eq_false_iff_ne]
      exact h24
    refine ⟨runHead i ++ (processedLines i).flatMap (lineEvents i.schema_name) ++
      (if (i.stderr_output == "") = true then ([] : List REvent)
        else [REvent.logMessage i.schema_name (("STDERR: ") ++ i.stderr_output.trim)]), ?_⟩
    rw [hdec, htail]
    unfold afterLoopEvents
    simp [hc, obsAt, e0, e24, List.append_assoc]

/-- Witness for claim C4: a clean exit-code-0 run ends with progress 100
and the "Completed" terminal. -/
theorem claim_C4_witness :
    wInputC4.return_code = 0 ∧
    ∃ pre, run wInputC4 = pre ++ [REvent.progressUpdated ("s") 100,
      REvent.jobFinished ("s") true "Completed"] :=
  ⟨rfl,
   (claim_C4 wInputC4 (by decide) (200 * 1024 * 1024) rfl (by decide) rfl rfl).1 rfl⟩

/-- Claim C5: when pre-flight fails, no subprocess is ever launched (no
`spawn` occurs in the run's trace).  A validation failure emits the
validation-error event and the terminal `(false, "Path validation
failed")`.  A destination that does not resolve emits the
validation-error event and the terminal "Destination not found"; an
erroring free-space query emits the disk-space-error event and the
terminal "Disk space check error"; free space below the 100 MiB threshold
emits the disk-space-error event and the terminal `(false, "Insufficient
disk space")`. -/
theorem claim_C5 (i : RunInput) :
    ((validate_schema_paths i.fs (some i.schema_data)).1 = false →
      run i = [REvent.logMessage i.schema_name
          (("Starting backup for '") ++ i.schema_name ++ ("'...")),
        REvent.validationError i.schema_name
          (("Path validation failed before starting: ") ++
            String.intercalate (", ") (validate_schema_paths i.fs (some i.schema_data)).2),
        REvent.jobFinished i.schema_name false "Path validation failed"] ∧
      REvent.spawn ∉ run i) ∧
    ((validate_schema_paths i.fs (some i.schema_data)).1 = true →
      i.disk_usage = .fileNotFound →
      run i = [REvent.logMessage i.schema_name
          (("Starting backup for '") ++ i.schema_name ++ ("'...")),
        REvent.validationError i.schema_name
          (("Destination directory '") ++ destString i.schema_data ++
            ("' not found for disk space check.")),
        REvent.jobFinished i.schema_name false "Destination not found"] ∧
      REvent.spawn ∉ run i) ∧
    (∀ e : String, (validate_schema_paths i.fs (some i.schema_data)).1 = true →
      i.disk_usage = .raised e →
      run i = [REvent.logMessage i.schema_name
          (("Starting backup for '") ++ i.schema_name ++ ("'...")),
        REvent.diskSpaceError i.schema_name
          (("Error checking disk space for '") ++ destString i.schema_data ++ ("': ") ++ e),
        REvent.jobFinished i.schema_name false "Disk space check error"] ∧
      REvent.spawn ∉ run i) ∧
    (∀ free : Nat, (validate_schema_paths i.fs (some i.schema_data)).1 = true →
      i.disk_usage = .ok free → free < free_space_threshold →
      run i = [REvent.logMessage i.schema_name
          (("Starting backup for '") ++ i.schema_name ++ ("'...")),
        REvent.diskSpaceError i.schema_name
          (("Insufficient disk space at destination '") ++ destString i.schema_data ++
            ("'. Free: ") ++ formatFreeMB free ++ (" MB")),
        REvent.jobFinished i.schema_name false "Insufficient disk space"] ∧
      REvent.spawn ∉ run i) := by
  refine ⟨?_, ?_, ?_, ?_⟩
  · intro hv
    exact ⟨by simp [run, hv], by simp [run, hv]⟩
  · intro hv hd
    exact ⟨by simp [run, hv, hd], by simp [run, hv, hd]⟩
  · intro e hv hd
    exact ⟨by simp [run, hv, hd], by simp [run, hv, hd]⟩
  · intro free hv hd hth
    exact ⟨by simp [run, hv, hd, hth], by simp [run, hv, hd, hth]⟩

/-- Witness for claim C5: failing path validation yields the validation
terminal and no subprocess launch. -/
theorem claim_C5_witness :
    (validate_schema_paths wInputC5.fs (some wInputC5.schema_data)).1 = false ∧
    REvent.spawn ∉ run wInputC5 :=
  ⟨by decide, ((claim_C5 wInputC5).1 (by decide)).2⟩

lemma ne_of_digit (c x : Char) (h : c.isDigit = true) (hx : x.isDigit = false) :
    (c == x) = false := by
  cases hb : (c == x) with
  | false => rfl
  | true =>
    have hcx : c = x := eq_of_beq hb
    rw [hcx] at h
    rw [h] at hx
    cases hx

lemma digit_not_space (c : Char) (h : c.isDigit = true) : pyIsSpace c = false := by
  unfold pyIsSpace
  rw [ne_of_digit c ' ' h (by decide), ne_of_digit c '\t' h (by decide),
    ne_of_digit c '\n' h (by decide), ne_of_digit c '\x0b' h (by decide),
    ne_of_digit c '\x0c' h (by decide), ne_of_digit c '\r' h (by decide)]
  rfl

lemma dropWhile_append_all (p : Char → Bool) (w t : List Char)
    (hw : ∀ c ∈ w, p c = true) :
    (w ++ t).dropWhile p = t.dropWhile p := by
  induction w with
  | nil => rfl
  | cons c cs ih =>
    rw [List.cons_append, List.dropWhile_cons, if_pos (hw c (by simp))]
    exact ih (fun x hx => hw x (by simp [hx]))

lemma takeWhile_append_stop (q : Char → Bool) (ds : List Char) (c : Char) (t : List Char)
    (hds : ∀ x ∈ ds, q x = true) (hc : q c = false) :
    (ds ++ c :: t).takeWhile q = ds := by
  induction ds with
  | nil =>
    simp only [List.nil_append, List.takeWhile_cons, hc]
    rfl
  | cons a as ih =>
    rw [List.cons_append, List.takeWhile_cons, if_pos (hds a (by simp)),
      ih (fun x hx => hds x (by simp [hx]))]

lemma dropWhile_append_stop (q : Char → Bool) (ds : List Char) (c : Char) (t : List Char)
    (hds : ∀ x ∈ ds, q x = true) (hc : q c = false) :
    (ds ++ c :: t).dropWhile q = c :: t := by
  induction ds with
  | nil =>
    simp only [List.nil_append, List.dropWhile_cons, hc]
    rfl
  | cons a as ih =>
    rw [List.cons_append, List.dropWhile_cons, if_pos (hds a (by simp))]
    exact ih (fun x hx => hds x (by simp [hx]))

lemma tryPercentAt_pattern (w ds : List Char) (d : Char) (b : List Char)
    (hw : w ≠ []) (hws : ∀ c ∈ w, pyIsSpace c = true)
    (hds : ds ≠ []) (hdig : ∀ c ∈ ds, c.isDigit = true)
    (hd : pyIsSpace d = true) :
    tryPercentAt (w ++ ds ++ '%' :: d :: b) = some (natOfDigits ds) := by
  cases w with
  | nil => exact absurd rfl hw
  | cons wc wr =>
    have hwc : pyIsSpace wc = true := hws wc (by simp)
    have hafter : (wr ++ (ds ++ '%' :: d :: b)).dropWhile pyIsSpace =
        ds ++ '%' :: d :: b := by
      rw [dropWhile_append_all pyIsSpace wr _ (fun x hx => hws x (by simp [hx]))]
      cases ds with
      | nil => exact absurd rfl hds
      | cons d0 dr =>
        rw [List.cons_append, List.dropWhile_cons,
          if_neg (by rw [digit_not_space d0 (hdig d0 (by simp))]; simp)]
    have htw : (ds ++ '%' :: d :: b).takeWhile Char.isDigit = ds :=
      takeWhile_append_stop _ ds '%' _ hdig (by decide)
    have hdw : (ds ++ '%' :: d :: b).dropWhile Char.isDigit = '%' :: d :: b :=
      dropWhile_append_stop _ ds '%' _ hdig (by decide)
    have hdse : ds.isEmpty = false := by
      cases ds with
      | nil => exact absurd rfl hds
      | cons x xs => rfl
    rw [List.append_assoc, List.cons_append]
    simp only [tryPercentAt, hwc, if_true, hafter, htw, hdw, hdse, hd]
    simp

lemma searchPercentList_suffix (a t : List Char) (h : tryPercentAt t ≠ none) :
    searchPercentList (a ++ t) ≠ none := by
  induction a with
  | nil =>
    cases t with
    | nil => simp [tryPercentAt] at h
    | cons c r =>
      rw [List.nil_append]
      unfold searchPercentList
      cases htry : tryPercentAt (c :: r) with
      | none => exact absurd htry h
      | some n => simp
  | cons x xs ih =>
    rw [List.cons_append]
    unfold searchPercentList
    cases htry : tryPercentAt (x :: (xs ++ t)) with
    | some n => simp
    | none => exact ih

lemma tryPercentAt_decomp (cs : List Char) (h : tryPercentAt cs ≠ none) :
    ∃ w ds d b, cs = w ++ ds ++ '%' :: d :: b ∧ w ≠ [] ∧
      (∀ c ∈ w, pyIsSpace c = true) ∧
      ds ≠ [] ∧ (∀ c ∈ ds, c.isDigit = true) ∧ pyIsSpace d = true := by
  cases cs with
  | nil => simp [tryPercentAt] at h
  | cons c rest =>
    simp only [tryPercentAt] at h
    cases hc : pyIsSpace c with
    | false => rw [hc] at h; simp at h
    | true =>
      rw [hc] at h
      simp only [if_true] at h
      rcases hsplit : (rest.dropWhile pyIsSpace).dropWhile Char.isDigit with - | ⟨p, - | ⟨d, b⟩⟩
      · rw [hsplit] at h
        simp at h
      · rw [hsplit] at h
        simp at h
      · rw [hsplit] at h
        cases hp : (p == '%') with
        | false => simp [hp] at h
        | true =>
          have hpc : p = '%' := eq_of_beq hp
          cases hdse : ((rest.dropWhile pyIsSpace).takeWhile Char.isDigit).isEmpty with
          | true => simp [hp, hdse] at h
          | false =>
            cases hd : pyIsSpace d with
            | false => simp [hp, hdse, hd] at h
            | true =>
              refine ⟨c :: rest.takeWhile pyIsSpace,
                (rest.dropWhile pyIsSpace).takeWhile Char.isDigit, d, b, ?_, ?_, ?_, ?_, ?_, hd⟩
              · rw [List.append_assoc, List.cons_append]
                have h1 : rest = rest.takeWhile pyIsSpace ++ rest.dropWhile pyIsSpace :=
                  (List.takeWhile_append_dropWhile _ _).symm
                have h2 : rest.dropWhile pyIsSpace =
                    (rest.dropWhile pyIsSpace).takeWhile Char.isDigit ++
                      (rest.dropWhile pyIsSpace).dropWhile Char.isDigit :=
                  (List.takeWhile_append_dropWhile _ _).symm
                rw [hsplit, hpc] at h2
                conv_lhs => rw [h1, h2]
              · simp
              · intro x hx
                rcases List.mem_cons.mp hx with hxc | hxm
                · rw [hxc]
                  exact hc
                · exact List.mem_takeWhile_imp hxm
              · intro hnil
                rw [hnil] at hdse
                cases hdse
              · intro x hx
                exact List.mem_takeWhile_imp hx

lemma searchPercentList_decomp (cs : List Char) (h : searchPercentList cs ≠ none) :
    ∃ a w ds d b, cs = a ++ w ++ ds ++ '%' :: d :: b ∧ w ≠ [] ∧
      (∀ c ∈ w, pyIsSpace c = true) ∧
      ds ≠ [] ∧ (∀ c ∈ ds, c.isDigit = true) ∧ pyIsSpace d = true := by
  induction cs with
  | nil => simp [searchPercentList] at h
  | cons c rest ih =>
    unfold searchPercentList at h
    cases htry : tryPercentAt (c :: rest) with
    | some n =>
      obtain ⟨w, ds, d, b, heq, h1, h2, h3, h4, h5⟩ :=
        tryPercentAt_decomp (c :: rest) (by rw [htry]; simp)
      exact ⟨[], w, ds, d, b, by simpa using heq, h1, h2, h3, h4, h5⟩
    | none =>
      rw [htry] at h
      obtain ⟨a, w, ds, d, b, heq, h1, h2, h3, h4, h5⟩ := ih h
      refine ⟨c :: a, w, ds, d, b, ?_, h1, h2, h3, h4, h5⟩
      simp only [List.cons_append]
      rw [← heq]

lemma searchPercent_iff (l : String) :
    searchPercent l ≠ none ↔ progressPattern l := by
  unfold searchPercent progressPattern
  constructor
  · intro h
    exact searchPercentList_decomp l.data h
  · rintro ⟨a, w, ds, d, b, heq, h1, h2, h3, h4, h5⟩
    rw [heq]
    have hassoc : a ++ w ++ ds ++ '%' :: d :: b = a ++ (w ++ ds ++ '%' :: d :: b) := by
      simp [List.append_assoc]
    rw [hassoc]
    apply searchPercentList_suffix
    rw [tryPercentAt_pattern w ds d b h1 h2 h3 h4 h5]
    simp

/-- Claim C9, counterexample: the claim bounds every emitted percentage by
100, but the parser emits the matched integer unclamped — the line
" 435% " makes the worker emit a progress event with percentage 435. -/
theorem claim_C9_counterexample :
    REvent.progressUpdated ("s") 435 ∈ run cexInputC9 ∧ ¬ (435 : Nat) ≤ 100 :=
  ⟨by decide, by decide⟩

/-- Claim C9, amended: for every non-empty subprocess output line, a log
event carrying the stripped line is always emitted; a progress event with
percentage `p` is emitted iff the progress regex search returns `p` (the
leftmost match's digit group, as an integer); the search succeeds iff the
line contains whitespace, then digits, then a percent sign, then
whitespace; and a line without a match produces only its log event.  The
emitted percentage is the matched (non-negative) integer but is not
clamped to 100. -/
theorem claim_C9_amended (name l : String) (h : l ≠ "") :
    (REvent.logMessage name l.trim ∈ lineEvents name l) ∧
    (∀ p : Nat, REvent.progressUpdated name p ∈ lineEvents name l ↔
      searchPercent l = some p) ∧
    (searchPercent l ≠ none ↔ progressPattern l) ∧
    (searchPercent l = none → lineEvents name l = [REvent.logMessage name l.trim]) := by
  have hb : (l == "") = false := by
    rw [beq_eq_false_iff_ne]
    exact h
  refine ⟨?_, ?_, searchPercent_iff l, ?_⟩
  · unfold lineEvents
    rw [hb]
    simp only [Bool.false_eq_true, if_false]
    cases searchPercent l <;> simp
  · intro p
    unfold lineEvents
    rw [hb]
    simp only [Bool.false_eq_true, if_false]
    cases hp : searchPercent l with
    | none => simp
    | some q =>
      simp only [List.mem_cons, List.mem_singleton]
      constructor
      · intro hm
        rcases hm with hm | hm | hm
        · cases hm
        · cases hm
          rfl
        · cases hm
      · intro hm
        cases hm
        exact Or.inr (Or.inl rfl)
  · intro hnone
    unfold lineEvents
    rw [hb]
    simp [hnone]

/-- Witness for the amended claim C9 at a concrete matching line. -/
theorem claim_C9_witness :
    (" 50% \n" : String) ≠ "" ∧
    REvent.progressUpdated ("s") 50 ∈ lineEvents ("s") (" 50% \n") :=
  ⟨by decide,
   ((claim_C9_amended ("s") (" 50% \n") (by decide)).2.1 50).mpr (by decide)⟩
